import Mathlib

/-!
Verification development for portbounce.

`portbounce.c` listens on one TCP port and, for every accepted connection,
forks a child that connects to a target port on localhost and shuttles bytes
between the two sockets.

The program is all system calls, so the embedding is a pair of total
functions (`main`, `bouncetraffic`) from an explicit description of what the
C library and the kernel answer (`World`, `RelayWorld`) to the list of calls
the process performs, each with its arguments and its result (`Ev`), and the
way the run ends.  The scripts are finite: when the script of a blocking call
(`select` without timeout, `accept`) is exhausted the process stays blocked in
that call for ever, which is itself a behaviour of the program.

One run of `main` is the view of ONE process: `fork` answers a positive pid in
the dispatcher and `0` in the child.
-/

namespace Portbounce

/-! ## Data model -/

/-- One byte of a `char` buffer. -/
abbrev Byte := Nat

/-- The constant `BACKLOG` (line 56). -/
def BACKLOG : Int := 10

/-- The constant `BUFFERSIZE` (line 57). -/
def BUFFERSIZE : Nat := 4096

/-- System and library calls of the program, with the arguments the program
passes and the result the environment gives back. -/
inductive Ev where
  | printf (msg : String)
  | socket (ret : Int)
  | bind (fd : Int) (port : Nat) (ret : Int)
  | listen (fd : Int) (backlog : Int) (ret : Int)
  | accept (fd : Int) (ret : Int)
  | fork (ret : Int)
  | close (fd : Int)
  | gethostbyname (name : String) (found : Bool)
  | connect (fd : Int) (addr : List Byte) (port : Nat) (ret : Int)
  | select (nfds : Int) (readfds : List Int) (ret : Int) (ready : List Int)
  | recv (fd : Int) (len : Nat) (ret : Int) (data : List Byte)
  | send (fd : Int) (payload : List Byte) (ret : Int)
  deriving DecidableEq

/-- How a call of `bouncetraffic` ends: it returns, it stays blocked in
`select`, or it dereferences a null pointer. -/
inductive Stop where
  | returned
  | blocked
  | fault
  deriving DecidableEq

/-- How a run of `main` ends in one process: `return status`, blocked for ever
in `accept` or `select`, or a null-pointer dereference. -/
inductive Exit where
  | status (n : Int)
  | blocked
  | fault
  deriving DecidableEq

/-- The `struct hostent` fields the program reads. -/
structure HostEnt where
  h_addr : List Byte
  h_length : Int
  deriving DecidableEq

/-- What one `recv` answers: the return value and the bytes stored in the
buffer. -/
structure RecvRes where
  ret : Int
  data : List Byte
  deriving DecidableEq

/-- What the kernel answers during one turn of the relay loop: the return
value of `select` and the descriptors left in the read set, and the answers of
the (at most) two `recv` and two `send` calls of the turn. -/
structure Round where
  selectRet : Int
  ready : List Int
  recvSock : RecvRes
  sendOut : Int
  recvOut : RecvRes
  sendSock : Int
  deriving DecidableEq

/-- What the environment answers to one call of `bouncetraffic`. -/
structure RelayWorld where
  socketRet : Int
  host : Option HostEnt
  connectRet : Int
  rounds : List Round
  deriving DecidableEq

/-- What the environment answers to one turn of the accept loop of `main`;
`relay` is consulted only in the child (`forkRet = 0`). -/
structure ConnWorld where
  acceptRet : Int
  forkRet : Int
  relay : RelayWorld
  deriving DecidableEq

/-- What the environment answers to one run of `main`. -/
structure World where
  atoi : String → Int
  socketRet : Int
  bindRet : Int
  listenRet : Int
  conns : List ConnWorld

/-! ## The program -/

/-- Puts events in front of the trace of a continuation. -/
def andThen {ω : Type} (es : List Ev) (k : List Ev × ω) : List Ev × ω :=
  (es ++ k.1, k.2)

/-- The port denoted by `htons(x)` for an `int` argument: the conversion to
`uint16_t` keeps `x mod 2^16`; the byte swap is the representation of that
number in the address structure. -/
def htons (hostshort : Int) : Nat := (hostshort % 65536).toNat

/-- A buffer of `n` bytes after `bzero` and after `data` was then stored at
its start (by `recv` or `bcopy`; at most `n` bytes fit). -/
def stored (n : Nat) (data : List Byte) : List Byte :=
  data.take n ++ List.replicate (n - (data.take n).length) 0

/-- The field `dst.sin_addr.s_addr` (4 bytes, zeroed by `bzero`) after
`bcopy(h->h_addr, &dst.sin_addr.s_addr, h->h_length)`. -/
def sinAddr (h : HostEnt) : List Byte :=
  stored 4 (h.h_addr.take h.h_length.toNat)

/-- One direction of one turn of the relay loop (lines 173-184 with
`src = sock`, `dst = outfd`; lines 186-197 with `src = outfd`, `dst = sock`):
the events performed, and whether the loop goes on (`false`: `return`). -/
def relayDir (src dst : Int) (isset : Bool) (rr : RecvRes) (sent : Int) :
    List Ev × Bool :=
  if isset then
    let buf := stored BUFFERSIZE rr.data
    if rr.ret > 0 then
      (Ev.recv src BUFFERSIZE rr.ret rr.data
        :: Ev.send dst (buf.take rr.ret.toNat) sent
        :: (if sent ≠ rr.ret then [Ev.printf "warning partial send\n"] else []),
       true)
    else
      ([Ev.recv src BUFFERSIZE rr.ret rr.data], false)
  else
    ([], true)

/-- The `for (;;)` loop of `bouncetraffic` (lines 165-199). -/
def relayLoop (sock outfd maxfd : Int) : List Round → List Ev × Stop
  | [] => ([], Stop.blocked)
  | r :: rs =>
    andThen [Ev.select maxfd [sock, outfd] r.selectRet r.ready] <|
      if r.selectRet = -1 then
        ([Ev.printf "error with select\n"], Stop.returned)
      else
        let a := relayDir sock outfd (decide (sock ∈ r.ready)) r.recvSock r.sendOut
        if a.2 then
          let b := relayDir outfd sock (decide (outfd ∈ r.ready)) r.recvOut r.sendSock
          if b.2 then
            andThen (a.1 ++ b.1) (relayLoop sock outfd maxfd rs)
          else
            (a.1 ++ b.1, Stop.returned)
        else
          (a.1, Stop.returned)

/-- The function `void bouncetraffic(int sock, int target)` (lines 129-200). -/
def bouncetraffic (sock target : Int) (w : RelayWorld) : List Ev × Stop :=
  let outfd := w.socketRet
  andThen [Ev.socket outfd] <|
    if outfd < 0 then
      ([Ev.printf "socket allocation error\n"], Stop.returned)
    else
      match w.host with
      | none =>
        -- `h->h_addr` with `h == NULL`
        ([Ev.gethostbyname "localhost" false], Stop.fault)
      | some h =>
        andThen [Ev.gethostbyname "localhost" true,
                 Ev.connect outfd (sinAddr h) (htons target) w.connectRet] <|
          if w.connectRet < 0 then
            ([Ev.printf "got connection but nothing listening on other end\n"],
             Stop.returned)
          else
            let maxfd := if sock > outfd then sock + 1 else outfd + 1
            relayLoop sock outfd maxfd w.rounds

/-- The child after `fork` (lines 116-120): `close(lsock)`, the relay, and
`return 0`. -/
def childExit : Stop → Exit
  | Stop.returned => Exit.status 0
  | Stop.blocked => Exit.blocked
  | Stop.fault => Exit.fault

/-- The `for (;;)` accept loop of `main` (lines 102-124). -/
def acceptLoop (lsock tnum : Int) : List ConnWorld → List Ev × Exit
  | [] => ([], Exit.blocked)
  | c :: cs =>
    let ssock := c.acceptRet
    andThen [Ev.accept lsock ssock] <|
      if ssock < 0 then
        ([Ev.printf "socket accept error\n"], Exit.status 1)
      else
        let pid := c.forkRet
        andThen [Ev.fork pid] <|
          if pid < 0 then
            ([Ev.printf "fork error\n"], Exit.status 1)
          else if pid = 0 then
            let b := bouncetraffic ssock tnum c.relay
            (Ev.close lsock :: b.1, childExit b.2)
          else
            andThen [Ev.close ssock] (acceptLoop lsock tnum cs)

/-- The function `int main(int argc, char *argv[])` (lines 61-127); `argc` is
the length of `argv`, and `argv[0]` of an empty vector prints as `(null)`. -/
def main (argv : List String) (w : World) : List Ev × Exit :=
  let argc : Int := argv.length
  if argc ≠ 3 then
    ([Ev.printf (argv.getD 0 "(null)" ++ ": need a listen port and target port\n")],
     Exit.status 1)
  else
    let lnum := w.atoi (argv.getD 1 "")
    let tnum := w.atoi (argv.getD 2 "")
    if lnum = 0 ∨ tnum = 0 then
      ([Ev.printf "port numbers look bogus\n"], Exit.status 1)
    else
      let lsock := w.socketRet
      andThen [Ev.socket lsock] <|
        if lsock < 0 then
          ([Ev.printf "socket allocation error\n"], Exit.status 1)
        else
          andThen [Ev.bind lsock (htons lnum) w.bindRet] <|
            if w.bindRet < 0 then
              ([Ev.printf "bind error\n"], Exit.status 1)
            else
              andThen [Ev.listen lsock BACKLOG w.listenRet] <|
                acceptLoop lsock tnum w.conns

/-! ## Observations on traces -/

/-- Bytes that one event delivered to the program from descriptor `fd`: the
data of a `recv` on `fd` that returned a positive count. -/
def chunkFrom (fd : Int) : Ev → List Byte
  | Ev.recv f _ ret data => if f = fd ∧ 0 < ret then data else []
  | _ => []

/-- Concatenation, in order, of the chunks received from `fd`. -/
def chunksFrom (fd : Int) : List Ev → List Byte
  | [] => []
  | e :: t => chunkFrom fd e ++ chunksFrom fd t

/-- Bytes that one event transmitted on descriptor `fd`: the first `ret` bytes
of the payload of a `send` on `fd` that returned `ret`. -/
def sentTo (fd : Int) : Ev → List Byte
  | Ev.send f payload ret => if f = fd then payload.take ret.toNat else []
  | _ => []

/-- Concatenation, in order, of the bytes transmitted on `fd`. -/
def transmittedTo (fd : Int) : List Ev → List Byte
  | [] => []
  | e :: t => sentTo fd e ++ transmittedTo fd t

/-- A `recv` event is well formed when the kernel stored exactly as many bytes
as it returned, and no more than the length it was given. -/
def recvOk : Ev → Bool
  | Ev.recv _ len ret data => decide (data.length = ret.toNat ∧ ret ≤ (len : Int))
  | _ => true

/-- A `send` event transmitted the whole payload it was given. -/
def sendsAll : Ev → Bool
  | Ev.send _ payload ret => decide (ret = (payload.length : Int))
  | _ => true

/-- A `recv` event that reports end of stream or an error. -/
def recvEnded : Ev → Bool
  | Ev.recv _ _ ret _ => decide (ret ≤ 0)
  | _ => false

/-- A run ends at its first ended `recv`: such an event is the last of the
trace and the run has the outcome `good`. -/
def EndsRun {ω : Type} (good : ω) (r : List Ev × ω) : Prop :=
  ∀ pre e post, r.1 = pre ++ e :: post → recvEnded e = true → post = [] ∧ r.2 = good

/-- In both directions, the bytes transmitted on one descriptor are the bytes
received from the other. -/
def Balanced (sock outfd : Int) (t : List Ev) : Prop :=
  transmittedTo outfd t = chunksFrom sock t ∧ transmittedTo sock t = chunksFrom outfd t

/-- The descriptors an event operates on. -/
def usesFds : Ev → List Int
  | Ev.bind fd _ _ => [fd]
  | Ev.listen fd _ _ => [fd]
  | Ev.accept fd _ => [fd]
  | Ev.close fd => [fd]
  | Ev.connect fd _ _ _ => [fd]
  | Ev.select _ readfds _ _ => readfds
  | Ev.recv fd _ _ _ => [fd]
  | Ev.send fd _ _ => [fd]
  | _ => []

/-- The calls that only a listening socket serves. -/
def listenerCall : Ev → Bool
  | Ev.bind _ _ _ => true
  | Ev.listen _ _ _ => true
  | Ev.accept _ _ => true
  | _ => false

/-- The descriptor table of the process after one event. -/
def fdStep (fds : List Int) : Ev → List Int
  | Ev.socket r => if 0 ≤ r then r :: fds else fds
  | Ev.accept _ r => if 0 ≤ r then r :: fds else fds
  | Ev.close fd => fds.filter (fun d => d ≠ fd)
  | _ => fds

/-- The descriptors the process holds when its run has ended.  A process that
has terminated (by `return` from `main`, or killed at a fault) holds none: the
kernel closes them all.  A process blocked in a call holds what it opened and
did not close. -/
def heldFds (r : List Ev × Exit) : List Int :=
  match r.2 with
  | Exit.blocked => r.1.foldl fdStep []
  | Exit.status _ => []
  | Exit.fault => []

/-- The calls of the dispatcher for a run of connections that it accepts and
for each of which `fork` answers it a pid: `accept`, `fork`, `close(ssock)`
per connection. -/
def parentTurns (lsock : Int) : List ConnWorld → List Ev
  | [] => []
  | c :: cs =>
    Ev.accept lsock c.acceptRet :: Ev.fork c.forkRet :: Ev.close c.acceptRet ::
      parentTurns lsock cs

/-! ## Example worlds -/

/-- Decimal value of a digit string, most significant digit first. -/
def digitsVal : List Char → Int → Int
  | [], acc => acc
  | c :: cs, acc =>
    if c.isDigit then digitsVal cs (10 * acc + ((c.toNat : Int) - 48)) else acc

/-- The C library's `atoi` on strings without leading blanks whose value fits
an `int`: optional sign, then decimal digits up to the first other character;
`0` when there is no digit. -/
def atoiDec (s : String) : Int :=
  match s.toList with
  | '-' :: cs => - digitsVal cs 0
  | '+' :: cs => digitsVal cs 0
  | cs => digitsVal cs 0

/-- The answers of an IPv4 resolver for `localhost`. -/
def loopback : HostEnt := { h_addr := [127, 0, 0, 1], h_length := 4 }

/-- A relay in which the target accepts only 2 of the 4 bytes of `ping`, and
the client then sends nothing more. -/
def shortSendWorld : RelayWorld :=
  { socketRet := 3, host := some loopback, connectRet := 0,
    rounds := [
      { selectRet := 1, ready := [4], recvSock := ⟨4, [112, 105, 110, 103]⟩,
        sendOut := 2, recvOut := ⟨0, []⟩, sendSock := 0 },
      { selectRet := 1, ready := [3], recvSock := ⟨0, []⟩,
        sendOut := 0, recvOut := ⟨2, [111, 107]⟩, sendSock := 2 }] }

/-- A relay in which the `send` to the target fails, and the client then sends
a second chunk. -/
def sendErrorWorld : RelayWorld :=
  { socketRet := 3, host := some loopback, connectRet := 0,
    rounds := [
      { selectRet := 1, ready := [4], recvSock := ⟨4, [112, 105, 110, 103]⟩,
        sendOut := (-1), recvOut := ⟨0, []⟩, sendSock := 0 },
      { selectRet := 1, ready := [4], recvSock := ⟨2, [104, 105]⟩,
        sendOut := 2, recvOut := ⟨0, []⟩, sendSock := 0 }] }

/-- A relay for which `localhost` does not resolve. -/
def noHostWorld : RelayWorld :=
  { socketRet := 3, host := none, connectRet := 0, rounds := [] }

/-- A relay whose target port has no listener. -/
def refusedWorld : RelayWorld :=
  { socketRet := 3, host := some loopback, connectRet := (-1), rounds := [] }

/-- An echo session: the client sends `ping`, the target answers `ping` in
the next round, then both are readable at once and the client has closed. -/
def echoWorld : RelayWorld :=
  { socketRet := 3, host := some loopback, connectRet := 0,
    rounds := [
      { selectRet := 1, ready := [4], recvSock := ⟨4, [112, 105, 110, 103]⟩,
        sendOut := 4, recvOut := ⟨0, []⟩, sendSock := 0 },
      { selectRet := 1, ready := [3], recvSock := ⟨0, []⟩,
        sendOut := 0, recvOut := ⟨4, [112, 105, 110, 103]⟩, sendSock := 4 },
      { selectRet := 2, ready := [4, 3], recvSock := ⟨0, []⟩,
        sendOut := 0, recvOut := ⟨2, [111, 107]⟩, sendSock := 2 }] }

/-- A dispatcher whose `listen` fails with the address in use; the `accept`
that follows on the socket, which is not listening, fails at once. -/
def listenFailsWorld : World :=
  { atoi := atoiDec, socketRet := 3, bindRet := 0, listenRet := (-1),
    conns := [{ acceptRet := (-1), forkRet := 0, relay := echoWorld }] }

/-- A dispatcher that serves two connections (pids 7 and 8) and whose third
`accept` fails. -/
def acceptFailsWorld : World :=
  { atoi := atoiDec, socketRet := 3, bindRet := 0, listenRet := 0,
    conns := [{ acceptRet := 4, forkRet := 7, relay := echoWorld },
              { acceptRet := 4, forkRet := 8, relay := refusedWorld },
              { acceptRet := (-1), forkRet := 0, relay := echoWorld },
              { acceptRet := 4, forkRet := 9, relay := echoWorld }] }

/-- The child of the first connection of a healthy dispatcher, relaying an echo
session. -/
def childWorld : World :=
  { atoi := atoiDec, socketRet := 3, bindRet := 0, listenRet := 0,
    conns := [{ acceptRet := 4, forkRet := 0, relay := echoWorld }] }

/-- The child of the first connection when the target port has no listener. -/
def refusedChildWorld : World :=
  { atoi := atoiDec, socketRet := 3, bindRet := 0, listenRet := 0,
    conns := [{ acceptRet := 4, forkRet := 0, relay := refusedWorld }] }

/-! ## Basic facts about the embedding -/

theorem andThen_fst {ω : Type} (es : List Ev) (k : List Ev × ω) :
    (andThen es k).1 = es ++ k.1 := rfl

/-! ## The events of the relay loop -/

/-- Every event of one direction of a turn is a `recv` on the source, a `send`
to the destination, or a `printf`. -/
theorem relayDir_forall (P : Ev → Prop) (src dst : Int) (isset : Bool) (rr : RecvRes)
    (sent : Int) (hpr : ∀ msg, P (Ev.printf msg))
    (hrecv : ∀ len ret data, P (Ev.recv src len ret data))
    (hsend : ∀ payload ret, P (Ev.send dst payload ret)) :
    ∀ e ∈ (relayDir src dst isset rr sent).1, P e := by
  intro e he
  unfold relayDir at he
  split_ifs at he <;> simp at he
  · rcases he with rfl | rfl | rfl
    · exact hrecv _ _ _
    · exact hsend _ _
    · exact hpr _
  · rcases he with rfl | rfl
    · exact hrecv _ _ _
    · exact hsend _ _
  · subst he
    exact hrecv _ _ _

/-- Every event of the relay loop is the `select` on the pair, a `printf`, or
a `recv` or `send` on one of the two descriptors. -/
theorem relayLoop_forall (P : Ev → Prop) (sock outfd maxfd : Int)
    (hsel : ∀ ret ready, P (Ev.select maxfd [sock, outfd] ret ready))
    (hpr : ∀ msg, P (Ev.printf msg))
    (hrecv : ∀ fd len ret data, fd = sock ∨ fd = outfd → P (Ev.recv fd len ret data))
    (hsend : ∀ fd payload ret, fd = sock ∨ fd = outfd → P (Ev.send fd payload ret))
    (rs : List Round) :
    ∀ e ∈ (relayLoop sock outfd maxfd rs).1, P e := by
  induction rs with
  | nil => intro e he; simp [relayLoop] at he
  | cons r rs ih =>
    have ha := relayDir_forall P sock outfd (decide (sock ∈ r.ready)) r.recvSock r.sendOut
      hpr (fun l x d => hrecv sock l x d (Or.inl rfl)) (fun p x => hsend outfd p x (Or.inr rfl))
    have hb := relayDir_forall P outfd sock (decide (outfd ∈ r.ready)) r.recvOut r.sendSock
      hpr (fun l x d => hrecv outfd l x d (Or.inr rfl)) (fun p x => hsend sock p x (Or.inl rfl))
    intro e he
    unfold relayLoop at he
    rw [andThen_fst] at he
    rcases List.mem_append.mp he with h | h
    · simp at h; subst h; exact hsel _ _
    · dsimp only at h
      split_ifs at h
      · simp at h; subst h; exact hpr _
      · rw [andThen_fst] at h
        rcases List.mem_append.mp h with h | h
        · rcases List.mem_append.mp h with h | h
          · exact ha e h
          · exact hb e h
        · exact ih e h
      · rcases List.mem_append.mp h with h | h
        · exact ha e h
        · exact hb e h
      · exact ha e h

/-! ## A run ends at its first ended `recv` -/

theorem endsRun_of_none {ω : Type} (good : ω) (r : List Ev × ω)
    (h : ∀ e ∈ r.1, recvEnded e = false) : EndsRun good r := by
  intro pre e post ht he
  have : e ∈ r.1 := by rw [ht]; simp
  rw [h e this] at he
  exact absurd he (by decide)

theorem endsRun_front {ω : Type} (good : ω) (front : List Ev) (k : List Ev × ω)
    (h : ∀ e ∈ front, recvEnded e = false) (hk : EndsRun good k) :
    EndsRun good (andThen front k) := by
  induction front with
  | nil =>
    intro pre e post ht he
    exact hk pre e post (by simpa [andThen] using ht) he
  | cons x xs ih =>
    intro pre e post ht he
    have hx : recvEnded x = false := h x (by simp)
    have hxs : ∀ e ∈ xs, recvEnded e = false := fun e' h' => h e' (by simp [h'])
    cases pre with
    | nil =>
      simp [andThen] at ht
      rw [ht.1, he] at hx
      exact absurd hx (by decide)
    | cons p ps =>
      simp [andThen] at ht
      exact ih hxs ps e post (by simp [andThen, ht.2]) he

theorem endsRun_last {ω : Type} (good : ω) (front : List Ev) (x : Ev)
    (h : ∀ e ∈ front, recvEnded e = false) :
    EndsRun good (front ++ [x], good) := by
  have h1 : EndsRun good ([x], good) := by
    intro pre e post ht he
    cases pre with
    | nil => simp at ht; exact ⟨ht.2, rfl⟩
    | cons p ps => simp at ht
  exact endsRun_front good front ([x], good) h h1


theorem relayDir_go (src dst : Int) (isset : Bool) (rr : RecvRes) (sent : Int)
    (h : (relayDir src dst isset rr sent).2 = true) :
    ∀ e ∈ (relayDir src dst isset rr sent).1, recvEnded e = false := by
  intro e he
  unfold relayDir at h he
  split_ifs at h he with h1 h2 h3 <;> simp at he
  · rcases he with rfl | rfl | rfl
    · simp only [recvEnded, decide_eq_false_iff_not, not_le]; exact h2
    · rfl
    · rfl
  · rcases he with rfl | rfl
    · simp only [recvEnded, decide_eq_false_iff_not, not_le]; exact h2
    · rfl

theorem relayDir_stop (src dst : Int) (isset : Bool) (rr : RecvRes) (sent : Int)
    (h : (relayDir src dst isset rr sent).2 = false) :
    ∃ x, (relayDir src dst isset rr sent).1 = [x] := by
  unfold relayDir at h ⊢
  split_ifs at h ⊢
  all_goals simp at h ⊢

theorem relayLoop_endsRun (sock outfd maxfd : Int) (rs : List Round) :
    EndsRun Stop.returned (relayLoop sock outfd maxfd rs) := by
  induction rs with
  | nil => exact endsRun_of_none _ _ (by simp [relayLoop])
  | cons r rs ih =>
    unfold relayLoop
    apply endsRun_front
    · simp [recvEnded]
    · dsimp only
      split_ifs with h1 h2 h3
      · exact endsRun_of_none _ _ (by simp [recvEnded])
      · apply endsRun_front _ _ _ _ ih
        intro e he
        rcases List.mem_append.mp he with h | h
        · exact relayDir_go _ _ _ _ _ h2 e h
        · exact relayDir_go _ _ _ _ _ h3 e h
      · obtain ⟨x, hx⟩ := relayDir_stop _ _ _ _ _ (by simpa using h3)
        rw [hx]
        exact endsRun_last _ _ _ (relayDir_go _ _ _ _ _ h2)
      · obtain ⟨x, hx⟩ := relayDir_stop _ _ _ _ _ (by simpa using h2)
        rw [hx]
        exact endsRun_last _ [] _ (by simp)

theorem endsRun_ite {ω : Type} (good : ω) (c : Prop) [Decidable c] (a b : List Ev × ω)
    (ha : c → EndsRun good a) (hb : ¬c → EndsRun good b) :
    EndsRun good (if c then a else b) := by
  split_ifs with h
  · exact ha h
  · exact hb h

theorem bouncetraffic_endsRun (sock target : Int) (w : RelayWorld) :
    EndsRun Stop.returned (bouncetraffic sock target w) := by
  unfold bouncetraffic
  apply endsRun_front
  · simp [recvEnded]
  · refine endsRun_ite _ _ _ _ (fun _ => ?_) (fun _ => ?_)
    · exact endsRun_of_none _ _ (by simp [recvEnded])
    · cases w.host with
      | none => exact endsRun_of_none _ _ (by simp [recvEnded])
      | some h =>
        dsimp only
        apply endsRun_front
        · simp [recvEnded]
        · refine endsRun_ite _ _ _ _ (fun _ => ?_) (fun _ => ?_)
          · exact endsRun_of_none _ _ (by simp [recvEnded])
          · exact relayLoop_endsRun _ _ _ _

theorem endsRun_child (lsock : Int) (b : List Ev × Stop) (hb : EndsRun Stop.returned b) :
    EndsRun (Exit.status 0) (Ev.close lsock :: b.1, childExit b.2) := by
  have h1 : EndsRun (Exit.status 0) (b.1, childExit b.2) := by
    intro pre e post ht he
    obtain ⟨hp, ho⟩ := hb pre e post ht he
    refine ⟨hp, ?_⟩
    show childExit b.2 = Exit.status 0
    rw [ho]; rfl
  exact endsRun_front _ [Ev.close lsock] _ (by simp [recvEnded]) h1

theorem acceptLoop_endsRun (lsock tnum : Int) (cs : List ConnWorld) :
    EndsRun (Exit.status 0) (acceptLoop lsock tnum cs) := by
  induction cs with
  | nil => exact endsRun_of_none _ _ (by simp [acceptLoop])
  | cons c cs ih =>
    unfold acceptLoop
    dsimp only
    apply endsRun_front
    · simp [recvEnded]
    · refine endsRun_ite _ _ _ _ (fun _ => ?_) (fun _ => ?_)
      · exact endsRun_of_none _ _ (by simp [recvEnded])
      · apply endsRun_front
        · simp [recvEnded]
        · refine endsRun_ite _ _ _ _ (fun _ => ?_) (fun _ => ?_)
          · exact endsRun_of_none _ _ (by simp [recvEnded])
          · refine endsRun_ite _ _ _ _ (fun _ => ?_) (fun _ => ?_)
            · exact endsRun_child _ _ (bouncetraffic_endsRun _ _ _)
            · exact endsRun_front _ _ _ (by simp [recvEnded]) ih

theorem main_endsRun (argv : List String) (w : World) :
    EndsRun (Exit.status 0) (main argv w) := by
  unfold main
  dsimp only
  refine endsRun_ite _ _ _ _ (fun _ => ?_) (fun _ => ?_)
  · exact endsRun_of_none _ _ (by simp [recvEnded])
  · refine endsRun_ite _ _ _ _ (fun _ => ?_) (fun _ => ?_)
    · exact endsRun_of_none _ _ (by simp [recvEnded])
    · apply endsRun_front
      · simp [recvEnded]
      · refine endsRun_ite _ _ _ _ (fun _ => ?_) (fun _ => ?_)
        · exact endsRun_of_none _ _ (by simp [recvEnded])
        · apply endsRun_front
          · simp [recvEnded]
          · refine endsRun_ite _ _ _ _ (fun _ => ?_) (fun _ => ?_)
            · exact endsRun_of_none _ _ (by simp [recvEnded])
            · exact endsRun_front _ _ _ (by simp [recvEnded]) (acceptLoop_endsRun _ _ _)

/-! ## Bytes received and bytes transmitted -/

theorem chunksFrom_append (fd : Int) (a b : List Ev) :
    chunksFrom fd (a ++ b) = chunksFrom fd a ++ chunksFrom fd b := by
  induction a with
  | nil => rfl
  | cons x xs ih => simp [chunksFrom, ih]

theorem transmittedTo_append (fd : Int) (a b : List Ev) :
    transmittedTo fd (a ++ b) = transmittedTo fd a ++ transmittedTo fd b := by
  induction a with
  | nil => rfl
  | cons x xs ih => simp [transmittedTo, ih]

theorem balanced_append (sock outfd : Int) (a b : List Ev)
    (ha : Balanced sock outfd a) (hb : Balanced sock outfd b) :
    Balanced sock outfd (a ++ b) := by
  unfold Balanced at *
  rw [chunksFrom_append, chunksFrom_append, transmittedTo_append, transmittedTo_append,
    ha.1, ha.2, hb.1, hb.2]
  exact ⟨rfl, rfl⟩

theorem balanced_swap (sock outfd : Int) (t : List Ev) (h : Balanced outfd sock t) :
    Balanced sock outfd t := ⟨h.2, h.1⟩

theorem take_stored (n : Nat) (data : List Byte) (k : Nat)
    (hk : data.length = k) (hn : k ≤ n) : (stored n data).take k = data := by
  unfold stored
  have h1 : data.take n = data := List.take_of_length_le (by omega)
  rw [h1, List.take_append_of_le_length (by omega), List.take_of_length_le (by omega)]

theorem relayDir_balanced (src dst : Int) (hne : src ≠ dst) (isset : Bool) (rr : RecvRes)
    (sent : Int)
    (hok : ∀ e ∈ (relayDir src dst isset rr sent).1, recvOk e = true ∧ sendsAll e = true) :
    Balanced src dst (relayDir src dst isset rr sent).1 := by
  unfold relayDir at hok ⊢
  by_cases hs : isset = true
  · by_cases hr : rr.ret > 0
    · simp only [hs, hr, if_true] at hok ⊢
      have h1 := (hok (Ev.recv src BUFFERSIZE rr.ret rr.data) (by simp)).1
      have h2 := (hok (Ev.send dst (List.take rr.ret.toNat (stored BUFFERSIZE rr.data)) sent)
        (by simp)).2
      simp only [recvOk, decide_eq_true_eq] at h1
      simp only [sendsAll, decide_eq_true_eq] at h2
      have hb : (BUFFERSIZE : Int) = 4096 := rfl
      have hp : List.take rr.ret.toNat (stored BUFFERSIZE rr.data) = rr.data :=
        take_stored _ _ _ h1.1 (by unfold BUFFERSIZE at *; omega)
      rw [hp] at h2
      have hne2 : ¬ dst = src := fun h => hne h.symm
      have hsent : sent.toNat = rr.data.length := by omega
      constructor
      · rw [hp]
        split_ifs <;>
          simp [transmittedTo, chunksFrom, sentTo, chunkFrom, hr, hsent]
      · split_ifs <;>
          simp [transmittedTo, chunksFrom, sentTo, chunkFrom, hne, hne2]
    · simp only [hs, hr, if_true, if_false]
      have hne2 : ¬ dst = src := fun h => hne h.symm
      have hr2 : ¬ 0 < rr.ret := hr
      constructor
      · simp [transmittedTo, chunksFrom, chunkFrom, sentTo, hr2]
      · simp [transmittedTo, chunksFrom, chunkFrom, sentTo, hne2, hr2]
  · simp only [hs]
    exact ⟨rfl, rfl⟩


theorem relayLoop_cons_trace (sock outfd maxfd : Int) (r : Round) (rs : List Round) :
    (relayLoop sock outfd maxfd (r :: rs)).1 =
      [Ev.select maxfd [sock, outfd] r.selectRet r.ready] ++
        (if r.selectRet = -1 then [Ev.printf "error with select\n"]
         else if (relayDir sock outfd (decide (sock ∈ r.ready)) r.recvSock r.sendOut).2 = true then
           if (relayDir outfd sock (decide (outfd ∈ r.ready)) r.recvOut r.sendSock).2 = true then
             (relayDir sock outfd (decide (sock ∈ r.ready)) r.recvSock r.sendOut).1 ++
               (relayDir outfd sock (decide (outfd ∈ r.ready)) r.recvOut r.sendSock).1 ++
                 (relayLoop sock outfd maxfd rs).1
           else
             (relayDir sock outfd (decide (sock ∈ r.ready)) r.recvSock r.sendOut).1 ++
               (relayDir outfd sock (decide (outfd ∈ r.ready)) r.recvOut r.sendSock).1
         else (relayDir sock outfd (decide (sock ∈ r.ready)) r.recvSock r.sendOut).1) := by
  conv_lhs => rw [relayLoop]
  dsimp only
  split_ifs <;> simp [andThen]

theorem relayLoop_balanced (sock outfd maxfd : Int) (hne : sock ≠ outfd) (rs : List Round)
    (hok : ∀ e ∈ (relayLoop sock outfd maxfd rs).1, recvOk e = true ∧ sendsAll e = true) :
    Balanced sock outfd (relayLoop sock outfd maxfd rs).1 := by
  induction rs with
  | nil => exact ⟨rfl, rfl⟩
  | cons r rs ih =>
    rw [relayLoop_cons_trace] at hok ⊢
    have hsel : Balanced sock outfd [Ev.select maxfd [sock, outfd] r.selectRet r.ready] :=
      ⟨rfl, rfl⟩
    refine balanced_append sock outfd [_] _ hsel ?_
    split_ifs at hok ⊢ with h1 h2 h3
    · exact ⟨rfl, rfl⟩
    · refine balanced_append _ _ _ _ (balanced_append _ _ _ _ ?_ ?_) ?_
      · exact relayDir_balanced _ _ hne _ _ _ (fun e he => hok e (by simp [he]))
      · exact balanced_swap _ _ _
          (relayDir_balanced _ _ (Ne.symm hne) _ _ _ (fun e he => hok e (by simp [he])))
      · exact ih (fun e he => hok e (by simp [he]))
    · refine balanced_append _ _ _ _ ?_ ?_
      · exact relayDir_balanced _ _ hne _ _ _ (fun e he => hok e (by simp [he]))
      · exact balanced_swap _ _ _
          (relayDir_balanced _ _ (Ne.symm hne) _ _ _ (fun e he => hok e (by simp [he])))
    · exact relayDir_balanced _ _ hne _ _ _ (fun e he => hok e (by simp [he]))

theorem bouncetraffic_trace_cases (sock target : Int) (w : RelayWorld) :
    (∃ h maxfd, (bouncetraffic sock target w).1 =
        [Ev.socket w.socketRet, Ev.gethostbyname "localhost" true,
          Ev.connect w.socketRet (sinAddr h) (htons target) w.connectRet] ++
          (relayLoop sock w.socketRet maxfd w.rounds).1) ∨
      (∀ e ∈ (bouncetraffic sock target w).1, chunkFrom sock e = [] ∧
        chunkFrom w.socketRet e = [] ∧ sentTo sock e = [] ∧ sentTo w.socketRet e = []) := by
  unfold bouncetraffic
  by_cases h1 : w.socketRet < 0
  · right
    simp [andThen, h1, chunkFrom, sentTo]
  · cases hh : w.host with
    | none =>
      right
      simp [andThen, h1, chunkFrom, sentTo]
    | some h =>
      by_cases h2 : w.connectRet < 0
      · right
        simp [andThen, h1, h2, chunkFrom, sentTo]
      · left
        refine ⟨h, if sock > w.socketRet then sock + 1 else w.socketRet + 1, ?_⟩
        simp [andThen, h1, h2]

theorem chunksFrom_nil_of_forall (fd : Int) (t : List Ev)
    (h : ∀ e ∈ t, chunkFrom fd e = []) : chunksFrom fd t = [] := by
  induction t with
  | nil => rfl
  | cons x xs ih =>
    simp only [chunksFrom, h x (by simp), List.nil_append]
    exact ih (fun e he => h e (by simp [he]))

theorem transmittedTo_nil_of_forall (fd : Int) (t : List Ev)
    (h : ∀ e ∈ t, sentTo fd e = []) : transmittedTo fd t = [] := by
  induction t with
  | nil => rfl
  | cons x xs ih =>
    simp only [transmittedTo, h x (by simp), List.nil_append]
    exact ih (fun e he => h e (by simp [he]))

/-- C1: in every run of `bouncetraffic` in which each `recv` stored the bytes
it reported and each `send` transmitted the whole chunk it was given, the
bytes transmitted to the target are, in order, exactly the bytes received from
the client, and the bytes transmitted to the client are exactly the bytes
received from the target.  The descriptor `socket` returns is a new one, so it
differs from the client descriptor. -/
theorem relay_byte_exact (sock target : Int) (w : RelayWorld)
    (hfd : w.socketRet ≠ sock)
    (hrecv : ∀ e ∈ (bouncetraffic sock target w).1, recvOk e = true)
    (hsend : ∀ e ∈ (bouncetraffic sock target w).1, sendsAll e = true) :
    transmittedTo w.socketRet (bouncetraffic sock target w).1 =
        chunksFrom sock (bouncetraffic sock target w).1 ∧
      transmittedTo sock (bouncetraffic sock target w).1 =
        chunksFrom w.socketRet (bouncetraffic sock target w).1 := by
  rcases bouncetraffic_trace_cases sock target w with ⟨h, maxfd, ht⟩ | hnone
  · rw [ht] at hrecv hsend ⊢
    refine balanced_append sock w.socketRet _ _ ⟨rfl, rfl⟩ ?_
    exact relayLoop_balanced sock w.socketRet maxfd (Ne.symm hfd) w.rounds
      (fun e he => ⟨hrecv e (by simp [he]), hsend e (by simp [he])⟩)
  · rw [transmittedTo_nil_of_forall _ _ (fun e he => (hnone e he).2.2.2),
      transmittedTo_nil_of_forall _ _ (fun e he => (hnone e he).2.2.1),
      chunksFrom_nil_of_forall _ _ (fun e he => (hnone e he).1),
      chunksFrom_nil_of_forall _ _ (fun e he => (hnone e he).2.1)]
    exact ⟨rfl, rfl⟩

/-- Witness of C1: the echo session, in which `ping` travels both ways. -/
theorem relay_byte_exact_witness :
    echoWorld.socketRet ≠ 4 ∧
      (∀ e ∈ (bouncetraffic 4 9001 echoWorld).1, recvOk e = true) ∧
      (∀ e ∈ (bouncetraffic 4 9001 echoWorld).1, sendsAll e = true) ∧
      transmittedTo 3 (bouncetraffic 4 9001 echoWorld).1 = [112, 105, 110, 103] ∧
      chunksFrom 4 (bouncetraffic 4 9001 echoWorld).1 = [112, 105, 110, 103] ∧
      (transmittedTo echoWorld.socketRet (bouncetraffic 4 9001 echoWorld).1 =
          chunksFrom 4 (bouncetraffic 4 9001 echoWorld).1 ∧
        transmittedTo 4 (bouncetraffic 4 9001 echoWorld).1 =
          chunksFrom echoWorld.socketRet (bouncetraffic 4 9001 echoWorld).1) :=
  ⟨by decide, by decide, by decide, by decide, by decide,
    relay_byte_exact 4 9001 echoWorld (by decide) (by decide) (by decide)⟩

/-! ## End of the relay -/

/-- C3: a `recv` that returns 0 or a negative value is the last call of the
run.  In `bouncetraffic` no `select`, `recv` or `send` follows it, whatever
`select` reported about the other stream, and the function returns.  In the
process that runs it, `main` then returns 0, and the terminated process holds
no descriptor any more: both streams are closed. -/
theorem recv_end_stops_relay (sock target : Int) (relay : RelayWorld) (argv : List String)
    (w : World) :
    (∀ pre fd len ret data post,
        (bouncetraffic sock target relay).1 = pre ++ Ev.recv fd len ret data :: post →
        ret ≤ 0 →
        post = [] ∧ (bouncetraffic sock target relay).2 = Stop.returned) ∧
      (∀ pre fd len ret data post,
        (main argv w).1 = pre ++ Ev.recv fd len ret data :: post →
        ret ≤ 0 →
        post = [] ∧ (main argv w).2 = Exit.status 0 ∧ heldFds (main argv w) = []) := by
  constructor
  · intro pre fd len ret data post ht hret
    exact bouncetraffic_endsRun sock target relay pre _ post ht (by simpa [recvEnded] using hret)
  · intro pre fd len ret data post ht hret
    obtain ⟨hp, ho⟩ :=
      main_endsRun argv w pre _ post ht (by simpa [recvEnded] using hret)
    refine ⟨hp, ho, ?_⟩
    unfold heldFds
    rw [ho]

/-- Witness of C3: the echo session ends in a round in which both streams are
ready and the client stream is at its end. -/
theorem recv_end_stops_relay_witness :
    (bouncetraffic 4 9001 echoWorld).1 =
        (bouncetraffic 4 9001 echoWorld).1.take 10 ++ Ev.recv 4 4096 0 [] :: [] ∧
      (main ["portbounce", "9000", "9001"] childWorld).1 =
        (main ["portbounce", "9000", "9001"] childWorld).1.take 16 ++
          Ev.recv 4 4096 0 [] :: [] ∧
      (bouncetraffic 4 9001 echoWorld).2 = Stop.returned ∧
      (main ["portbounce", "9000", "9001"] childWorld).2 = Exit.status 0 ∧
      heldFds (main ["portbounce", "9000", "9001"] childWorld) = [] :=
  ⟨by decide, by decide,
    ((recv_end_stops_relay 4 9001 echoWorld ["portbounce", "9000", "9001"] childWorld).1
      ((bouncetraffic 4 9001 echoWorld).1.take 10) 4 4096 0 [] [] (by decide) (by decide)).2,
    ((recv_end_stops_relay 4 9001 echoWorld ["portbounce", "9000", "9001"] childWorld).2
      ((main ["portbounce", "9000", "9001"] childWorld).1.take 16) 4 4096 0 [] []
      (by decide) (by decide)).2⟩

/-! ## Sends that do not transmit the chunk -/

/-- C2 at a failing input: the target accepts 2 of the 4 bytes of `ping`.  The
relay prints a warning and goes on to the next `select`; the remaining 2
bytes are never sent. -/
theorem short_send_not_retried :
    bouncetraffic 4 9001 shortSendWorld =
        ([Ev.socket 3, Ev.gethostbyname "localhost" true,
          Ev.connect 3 [127, 0, 0, 1] 9001 0,
          Ev.select 5 [4, 3] 1 [4],
          Ev.recv 4 4096 4 [112, 105, 110, 103],
          Ev.send 3 [112, 105, 110, 103] 2,
          Ev.printf "warning partial send\n",
          Ev.select 5 [4, 3] 1 [3],
          Ev.recv 3 4096 2 [111, 107],
          Ev.send 4 [111, 107] 2], Stop.blocked) ∧
      chunksFrom 4 (bouncetraffic 4 9001 shortSendWorld).1 = [112, 105, 110, 103] ∧
      transmittedTo 3 (bouncetraffic 4 9001 shortSendWorld).1 = [112, 105] := by
  decide

/-- C4 at a failing input: the `send` to the target returns -1.  The relay
prints a warning and goes on: it selects, reads and forwards the next chunk. -/
theorem send_error_not_fatal :
    bouncetraffic 4 9001 sendErrorWorld =
      ([Ev.socket 3, Ev.gethostbyname "localhost" true,
        Ev.connect 3 [127, 0, 0, 1] 9001 0,
        Ev.select 5 [4, 3] 1 [4],
        Ev.recv 4 4096 4 [112, 105, 110, 103],
        Ev.send 3 [112, 105, 110, 103] (-1),
        Ev.printf "warning partial send\n",
        Ev.select 5 [4, 3] 1 [4],
        Ev.recv 4 4096 2 [104, 105],
        Ev.send 3 [104, 105] 2], Stop.blocked) := by
  decide

/-- C10 at a failing input: `localhost` does not resolve.  The program reads
`h->h_addr` through the null pointer. -/
theorem unresolved_host_faults :
    bouncetraffic 4 9001 noHostWorld =
      ([Ev.socket 3, Ev.gethostbyname "localhost" false], Stop.fault) := by
  decide

/-! ## One turn of the accept loop -/

theorem acceptLoop_parent (lsock tnum : Int) (c : ConnWorld) (cs : List ConnWorld)
    (hacc : 0 ≤ c.acceptRet) (hpid : 0 < c.forkRet) :
    acceptLoop lsock tnum (c :: cs) =
      andThen [Ev.accept lsock c.acceptRet, Ev.fork c.forkRet, Ev.close c.acceptRet]
        (acceptLoop lsock tnum cs) := by
  conv_lhs => rw [acceptLoop]
  have h1 : ¬ c.acceptRet < 0 := by omega
  have h2 : ¬ c.forkRet < 0 := by omega
  have h3 : ¬ c.forkRet = 0 := by omega
  simp [andThen, h1, h2, h3]

theorem acceptLoop_child (lsock tnum : Int) (c : ConnWorld) (cs : List ConnWorld)
    (hacc : 0 ≤ c.acceptRet) (hpid : c.forkRet = 0) :
    acceptLoop lsock tnum (c :: cs) =
      (Ev.accept lsock c.acceptRet :: Ev.fork 0 :: Ev.close lsock ::
          (bouncetraffic c.acceptRet tnum c.relay).1,
        childExit (bouncetraffic c.acceptRet tnum c.relay).2) := by
  conv_lhs => rw [acceptLoop]
  have h1 : ¬ c.acceptRet < 0 := by omega
  simp [andThen, h1, hpid]

theorem bouncetraffic_forall (P : Ev → Prop) (sock target : Int) (w : RelayWorld)
    (hsock : P (Ev.socket w.socketRet))
    (hhost : ∀ found, P (Ev.gethostbyname "localhost" found))
    (hconn : ∀ addr, P (Ev.connect w.socketRet addr (htons target) w.connectRet))
    (hsel : ∀ maxfd ret ready, P (Ev.select maxfd [sock, w.socketRet] ret ready))
    (hpr : ∀ msg, P (Ev.printf msg))
    (hrecv : ∀ fd len ret data, fd = sock ∨ fd = w.socketRet → P (Ev.recv fd len ret data))
    (hsend : ∀ fd payload ret, fd = sock ∨ fd = w.socketRet → P (Ev.send fd payload ret)) :
    ∀ e ∈ (bouncetraffic sock target w).1, P e := by
  intro e he
  unfold bouncetraffic at he
  rw [andThen_fst] at he
  rcases List.mem_append.mp he with h | h
  · simp at h; subst h; exact hsock
  · dsimp only at h
    by_cases h1 : w.socketRet < 0
    · rw [if_pos h1] at h
      simp at h; subst h; exact hpr _
    · rw [if_neg h1] at h
      cases hh : w.host with
      | none =>
        rw [hh] at h
        simp at h; subst h; exact hhost _
      | some ho =>
        rw [hh] at h
        dsimp only at h
        rw [andThen_fst] at h
        rcases List.mem_append.mp h with h | h
        · simp at h
          rcases h with rfl | rfl
          · exact hhost _
          · exact hconn _
        · by_cases h2 : w.connectRet < 0
          · rw [if_pos h2] at h
            simp at h; subst h; exact hpr _
          · rw [if_neg h2] at h
            exact relayLoop_forall P sock w.socketRet _ (hsel _) hpr hrecv hsend w.rounds e h

/-- The calls of `bouncetraffic` are on its two descriptors only, and none of
them is a call on a listening socket. -/
theorem bouncetraffic_fds (sock target : Int) (w : RelayWorld) :
    ∀ e ∈ (bouncetraffic sock target w).1,
      listenerCall e = false ∧ ∀ fd ∈ usesFds e, fd = sock ∨ fd = w.socketRet := by
  apply bouncetraffic_forall
  · simp [listenerCall, usesFds]
  · simp [listenerCall, usesFds]
  · simp [listenerCall, usesFds]
  · simp [listenerCall, usesFds]
  · simp [listenerCall, usesFds]
  · intro fd len ret data h
    simpa [listenerCall, usesFds] using h
  · intro fd payload ret h
    simpa [listenerCall, usesFds] using h

/-- C9: in the child (`fork` returned 0) the first call after `fork` is
`close(lsock)`; everything after it is the trace of `bouncetraffic`, in which
every call that takes a descriptor takes the accepted socket or the descriptor
that `socket` returned to the child, and no call is `bind`, `listen` or
`accept`.  In the dispatcher (`fork` returned a pid) the turn of the loop is
`accept`, `fork`, `close(ssock)` and the loop goes on with `accept`; the
listening descriptor stays in the descriptor table. -/
theorem child_drops_listener (lsock tnum : Int) (c : ConnWorld) (cs : List ConnWorld)
    (hacc : 0 ≤ c.acceptRet) :
    (c.forkRet = 0 →
        (acceptLoop lsock tnum (c :: cs)).1 =
            Ev.accept lsock c.acceptRet :: Ev.fork 0 :: Ev.close lsock ::
              (bouncetraffic c.acceptRet tnum c.relay).1 ∧
          ∀ e ∈ (bouncetraffic c.acceptRet tnum c.relay).1,
            listenerCall e = false ∧
              ∀ fd ∈ usesFds e, fd = c.acceptRet ∨ fd = c.relay.socketRet) ∧
      (0 < c.forkRet →
        acceptLoop lsock tnum (c :: cs) =
            andThen [Ev.accept lsock c.acceptRet, Ev.fork c.forkRet, Ev.close c.acceptRet]
              (acceptLoop lsock tnum cs) ∧
          ∀ fds : List Int, lsock ∈ fds → c.acceptRet ≠ lsock →
            lsock ∈ [Ev.accept lsock c.acceptRet, Ev.fork c.forkRet,
              Ev.close c.acceptRet].foldl fdStep fds) := by
  constructor
  · intro hpid
    refine ⟨?_, bouncetraffic_fds _ _ _⟩
    rw [acceptLoop_child lsock tnum c cs hacc hpid]
  · intro hpid
    refine ⟨acceptLoop_parent lsock tnum c cs hacc hpid, ?_⟩
    intro fds hl hne
    simp [fdStep, hacc, hl, Ne.symm hne]

/-- Witness of C9: the first connection of a dispatcher that listens on
descriptor 3, seen from the child and from the dispatcher. -/
theorem child_drops_listener_witness :
    (acceptLoop 3 9001 [⟨4, 0, echoWorld⟩]).1.take 4 =
        [Ev.accept 3 4, Ev.fork 0, Ev.close 3, Ev.socket 3] ∧
      acceptLoop 3 9001 [⟨4, 7, echoWorld⟩] =
        ([Ev.accept 3 4, Ev.fork 7, Ev.close 4], Exit.blocked) ∧
      (3 : Int) ∈ [Ev.accept 3 4, Ev.fork 7, Ev.close 4].foldl fdStep [3] :=
  ⟨by rw [((child_drops_listener 3 9001 ⟨4, 0, echoWorld⟩ [] (by decide)).1 rfl).1]; decide,
    ((child_drops_listener 3 9001 ⟨4, 7, echoWorld⟩ [] (by decide)).2 (by decide)).1,
    ((child_drops_listener 3 9001 ⟨4, 7, echoWorld⟩ [] (by decide)).2 (by decide)).2
      [3] (by decide) (by decide)⟩

/-! ## Failure of the outbound connect -/

/-- C5: when the outbound `connect` returns a negative value, `bouncetraffic`
prints a diagnostic and returns; its whole trace is `socket`, `gethostbyname`,
`connect`, `printf`, with no `select`, `recv` or `send`.  The child then
returns 0 from `main`, so the process ends and holds no descriptor; the
dispatcher, for which `fork` returned a pid, closes its copy of the accepted
socket and goes on with the accept loop. -/
theorem connect_failure_no_relay (lsock tnum : Int) (c : ConnWorld) (cs : List ConnWorld)
    (h : HostEnt) (hacc : 0 ≤ c.acceptRet) (hsock : 0 ≤ c.relay.socketRet)
    (hhost : c.relay.host = some h) (hconn : c.relay.connectRet < 0) :
    bouncetraffic c.acceptRet tnum c.relay =
        ([Ev.socket c.relay.socketRet, Ev.gethostbyname "localhost" true,
          Ev.connect c.relay.socketRet (sinAddr h) (htons tnum) c.relay.connectRet,
          Ev.printf "got connection but nothing listening on other end\n"],
         Stop.returned) ∧
      (c.forkRet = 0 →
        acceptLoop lsock tnum (c :: cs) =
            ([Ev.accept lsock c.acceptRet, Ev.fork 0, Ev.close lsock,
              Ev.socket c.relay.socketRet, Ev.gethostbyname "localhost" true,
              Ev.connect c.relay.socketRet (sinAddr h) (htons tnum) c.relay.connectRet,
              Ev.printf "got connection but nothing listening on other end\n"],
             Exit.status 0) ∧
          heldFds (acceptLoop lsock tnum (c :: cs)) = []) ∧
      (0 < c.forkRet →
        acceptLoop lsock tnum (c :: cs) =
          andThen [Ev.accept lsock c.acceptRet, Ev.fork c.forkRet, Ev.close c.acceptRet]
            (acceptLoop lsock tnum cs)) := by
  have hb : bouncetraffic c.acceptRet tnum c.relay =
      ([Ev.socket c.relay.socketRet, Ev.gethostbyname "localhost" true,
        Ev.connect c.relay.socketRet (sinAddr h) (htons tnum) c.relay.connectRet,
        Ev.printf "got connection but nothing listening on other end\n"],
       Stop.returned) := by
    have h1 : ¬ c.relay.socketRet < 0 := by omega
    unfold bouncetraffic
    simp [andThen, h1, hhost, hconn]
  refine ⟨hb, ?_, acceptLoop_parent lsock tnum c cs hacc⟩
  intro hpid
  have hc := acceptLoop_child lsock tnum c cs hacc hpid
  rw [hb] at hc
  have hc2 : acceptLoop lsock tnum (c :: cs) =
      ([Ev.accept lsock c.acceptRet, Ev.fork 0, Ev.close lsock,
        Ev.socket c.relay.socketRet, Ev.gethostbyname "localhost" true,
        Ev.connect c.relay.socketRet (sinAddr h) (htons tnum) c.relay.connectRet,
        Ev.printf "got connection but nothing listening on other end\n"],
       Exit.status 0) := hc
  refine ⟨hc2, ?_⟩
  rw [hc2]
  rfl

/-- Witness of C5: nothing listens on port 9002. -/
theorem connect_failure_no_relay_witness :
    bouncetraffic 4 9002 refusedWorld =
        ([Ev.socket 3, Ev.gethostbyname "localhost" true,
          Ev.connect 3 [127, 0, 0, 1] 9002 (-1),
          Ev.printf "got connection but nothing listening on other end\n"],
         Stop.returned) ∧
      acceptLoop 3 9002 [⟨4, 7, refusedWorld⟩, ⟨4, 8, echoWorld⟩] =
        ([Ev.accept 3 4, Ev.fork 7, Ev.close 4, Ev.accept 3 4, Ev.fork 8, Ev.close 4],
          Exit.blocked) :=
  ⟨(connect_failure_no_relay 3 9002 ⟨4, 0, refusedWorld⟩ [] loopback
      (by decide) (by decide) rfl (by decide)).1,
    (connect_failure_no_relay 3 9002 ⟨4, 7, refusedWorld⟩ [⟨4, 8, echoWorld⟩] loopback
      (by decide) (by decide) rfl (by decide)).2.2 (by decide)⟩

/-! ## Port numbers -/

theorem acceptLoop_forall (P : Ev → Prop) (lsock tnum : Int)
    (hacc : ∀ ret, P (Ev.accept lsock ret)) (hfork : ∀ ret, P (Ev.fork ret))
    (hclose : ∀ fd, P (Ev.close fd)) (hpr : ∀ msg, P (Ev.printf msg))
    (hchild : ∀ sock w, ∀ e ∈ (bouncetraffic sock tnum w).1, P e)
    (cs : List ConnWorld) :
    ∀ e ∈ (acceptLoop lsock tnum cs).1, P e := by
  induction cs with
  | nil => intro e he; simp [acceptLoop] at he
  | cons c cs ih =>
    intro e he
    rw [acceptLoop] at he
    dsimp only at he
    rw [andThen_fst] at he
    rcases List.mem_append.mp he with h | h
    · simp at h; subst h; exact hacc _
    · by_cases h1 : c.acceptRet < 0
      · rw [if_pos h1] at h
        simp at h; subst h; exact hpr _
      · rw [if_neg h1, andThen_fst] at h
        rcases List.mem_append.mp h with h | h
        · simp at h; subst h; exact hfork _
        · by_cases h2 : c.forkRet < 0
          · rw [if_pos h2] at h
            simp at h; subst h; exact hpr _
          · rw [if_neg h2] at h
            by_cases h3 : c.forkRet = 0
            · rw [if_pos h3] at h
              rcases List.mem_cons.mp h with h | h
              · subst h; exact hclose _
              · exact hchild _ _ e h
            · rw [if_neg h3, andThen_fst] at h
              rcases List.mem_append.mp h with h | h
              · simp at h; subst h; exact hclose _
              · exact ih e h

theorem htons_cast (x : Int) : ((htons x : Nat) : Int) = x % 65536 := by
  unfold htons
  exact Int.toNat_of_nonneg (Int.emod_nonneg x (by norm_num))

theorem htons_in_range (x : Int) (h0 : 0 < x) (h1 : x ≤ 65535) :
    ((htons x : Nat) : Int) = x ∧ htons x ≠ 0 := by
  have h := htons_cast x
  rw [Int.emod_eq_of_lt (by omega) (by omega)] at h
  refine ⟨h, ?_⟩
  intro hz
  rw [hz] at h
  simp at h
  omega

theorem main_forall (P : Ev → Prop) (argv : List String) (w : World)
    (hpr : ∀ msg, P (Ev.printf msg)) (hsock : P (Ev.socket w.socketRet))
    (hbind : P (Ev.bind w.socketRet (htons (w.atoi (argv.getD 1 ""))) w.bindRet))
    (hlisten : P (Ev.listen w.socketRet BACKLOG w.listenRet))
    (hloop : ∀ e ∈ (acceptLoop w.socketRet (w.atoi (argv.getD 2 "")) w.conns).1, P e) :
    ∀ e ∈ (main argv w).1, P e := by
  intro e he
  unfold main at he
  dsimp only at he
  generalize w.atoi (argv.getD 1 "") = lnum at he hbind
  generalize w.atoi (argv.getD 2 "") = tnum at he hloop
  generalize ((argv.getD 0 "(null)") ++ ": need a listen port and target port\n") = usage at he
  by_cases h1 : ((argv.length : Nat) : Int) ≠ 3
  · rw [if_pos h1, List.mem_singleton] at he
    subst he; exact hpr _
  · rw [if_neg h1] at he
    by_cases h2 : lnum = 0 ∨ tnum = 0
    · rw [if_pos h2, List.mem_singleton] at he
      subst he; exact hpr _
    · rw [if_neg h2, andThen_fst] at he
      rcases List.mem_append.mp he with h | h
      · rw [List.mem_singleton] at h; subst h; exact hsock
      · by_cases h3 : w.socketRet < 0
        · rw [if_pos h3, List.mem_singleton] at h
          subst h; exact hpr _
        · rw [if_neg h3, andThen_fst] at h
          rcases List.mem_append.mp h with h | h
          · rw [List.mem_singleton] at h; subst h; exact hbind
          · by_cases h4 : w.bindRet < 0
            · rw [if_pos h4, List.mem_singleton] at h
              subst h; exact hpr _
            · rw [if_neg h4, andThen_fst] at h
              rcases List.mem_append.mp h with h | h
              · rw [List.mem_singleton] at h; subst h; exact hlisten
              · exact hloop e h

/-- Every `bind` of a run of `main` names the port `htons(lnum)` and every
`connect` names the port `htons(tnum)`. -/
theorem main_ports (argv : List String) (w : World) :
    ∀ e ∈ (main argv w).1,
      (∀ f p r, e = Ev.bind f p r → p = htons (w.atoi (argv.getD 1 ""))) ∧
        (∀ f a p r, e = Ev.connect f a p r → p = htons (w.atoi (argv.getD 2 ""))) := by
  apply main_forall
  · intro msg; exact ⟨fun _ _ _ hh => (by cases hh), fun _ _ _ _ hh => (by cases hh)⟩
  · exact ⟨fun _ _ _ hh => (by cases hh), fun _ _ _ _ hh => (by cases hh)⟩
  · exact ⟨fun _ _ _ hh => (by cases hh; rfl), fun _ _ _ _ hh => (by cases hh)⟩
  · exact ⟨fun _ _ _ hh => (by cases hh), fun _ _ _ _ hh => (by cases hh)⟩
  · apply acceptLoop_forall
    · intro _; exact ⟨fun _ _ _ hh => (by cases hh), fun _ _ _ _ hh => (by cases hh)⟩
    · intro _; exact ⟨fun _ _ _ hh => (by cases hh), fun _ _ _ _ hh => (by cases hh)⟩
    · intro _; exact ⟨fun _ _ _ hh => (by cases hh), fun _ _ _ _ hh => (by cases hh)⟩
    · intro _; exact ⟨fun _ _ _ hh => (by cases hh), fun _ _ _ _ hh => (by cases hh)⟩
    · intro sock relay
      apply bouncetraffic_forall
      · exact ⟨fun _ _ _ hh => (by cases hh), fun _ _ _ _ hh => (by cases hh)⟩
      · intro _; exact ⟨fun _ _ _ hh => (by cases hh), fun _ _ _ _ hh => (by cases hh)⟩
      · intro _; exact ⟨fun _ _ _ hh => (by cases hh), fun _ _ _ _ hh => (by cases hh; rfl)⟩
      · intro _ _ _; exact ⟨fun _ _ _ hh => (by cases hh), fun _ _ _ _ hh => (by cases hh)⟩
      · intro _; exact ⟨fun _ _ _ hh => (by cases hh), fun _ _ _ _ hh => (by cases hh)⟩
      · intro _ _ _ _ _; exact ⟨fun _ _ _ hh => (by cases hh), fun _ _ _ _ hh => (by cases hh)⟩
      · intro _ _ _ _; exact ⟨fun _ _ _ hh => (by cases hh), fun _ _ _ _ hh => (by cases hh)⟩

/-- The argument check of `main` (lines 70-81) passes exactly when there are
three arguments and neither port parses to zero. -/
theorem main_accepts_iff (argv : List String) (w : World) :
    (main argv w).1.head? = some (Ev.socket w.socketRet) ↔
      argv.length = 3 ∧ w.atoi (argv.getD 1 "") ≠ 0 ∧ w.atoi (argv.getD 2 "") ≠ 0 := by
  unfold main
  dsimp only
  by_cases h1 : ((argv.length : Nat) : Int) ≠ 3
  · rw [if_pos h1]
    constructor
    · intro hok
      exact absurd hok (by simp)
    · intro h
      exact absurd (by exact_mod_cast h.1) h1
  · rw [if_neg h1]
    have hlen : argv.length = 3 := by
      have := not_not.mp h1
      exact_mod_cast this
    by_cases h2 : w.atoi (argv.getD 1 "") = 0 ∨ w.atoi (argv.getD 2 "") = 0
    · rw [if_pos h2]
      constructor
      · intro hok
        exact absurd hok (by simp)
      · intro h
        rcases h2 with h2 | h2
        · exact absurd h2 h.2.1
        · exact absurd h2 h.2.2
    · rw [if_neg h2]
      constructor
      · intro _
        exact ⟨hlen, fun h => h2 (Or.inl h), fun h => h2 (Or.inr h)⟩
      · intro _
        rfl

/-- C8, as the code has it: `main` passes its argument check (its first call
is `socket`) exactly when there are three arguments and both parsed values are
non-zero, so zero is the only value of a port argument that is rejected.
Every `bind` of the run names the port `lnum mod 2^16` and every `connect`
names the port `tnum mod 2^16`.  When the parsed value lies in 1..65535 that
port is the argument itself, and the listen port is non-zero. -/
theorem accepted_ports_mod_65536 (argv : List String) (w : World) :
    ((main argv w).1.head? = some (Ev.socket w.socketRet) ↔
        argv.length = 3 ∧ w.atoi (argv.getD 1 "") ≠ 0 ∧ w.atoi (argv.getD 2 "") ≠ 0) ∧
      (∀ fd port ret, Ev.bind fd port ret ∈ (main argv w).1 →
        (port : Int) = w.atoi (argv.getD 1 "") % 65536 ∧
          (0 < w.atoi (argv.getD 1 "") → w.atoi (argv.getD 1 "") ≤ 65535 →
            (port : Int) = w.atoi (argv.getD 1 "") ∧ port ≠ 0)) ∧
      (∀ fd addr port ret, Ev.connect fd addr port ret ∈ (main argv w).1 →
        (port : Int) = w.atoi (argv.getD 2 "") % 65536 ∧
          (0 < w.atoi (argv.getD 2 "") → w.atoi (argv.getD 2 "") ≤ 65535 →
            (port : Int) = w.atoi (argv.getD 2 ""))) := by
  refine ⟨main_accepts_iff argv w, ?_, ?_⟩
  · intro fd port ret hmem
    have hp := (main_ports argv w _ hmem).1 fd port ret rfl
    subst hp
    exact ⟨htons_cast _, htons_in_range _⟩
  · intro fd addr port ret hmem
    have hp := (main_ports argv w _ hmem).2 fd addr port ret rfl
    subst hp
    exact ⟨htons_cast _, fun a b => (htons_in_range _ a b).1⟩

/-- Witness of C8 as amended: ports 9000 and 9001 are accepted, port 9000 is
bound and port 9001 is connected to; the negative port -7 is accepted too. -/
theorem accepted_ports_mod_65536_witness :
    (main ["portbounce", "-7", "9001"] childWorld).1.head? = some (Ev.socket 3) ∧
      Ev.bind 3 9000 0 ∈ (main ["portbounce", "9000", "9001"] childWorld).1 ∧
      (((9000 : Nat) : Int) = childWorld.atoi "9000" ∧ (9000 : Nat) ≠ 0) ∧
      Ev.connect 3 [127, 0, 0, 1] 9001 0 ∈
        (main ["portbounce", "9000", "9001"] childWorld).1 ∧
      ((9001 : Nat) : Int) = childWorld.atoi "9001" :=
  ⟨(accepted_ports_mod_65536 ["portbounce", "-7", "9001"] childWorld).1.mpr
      ⟨by decide, by decide, by decide⟩,
    by decide,
    ((accepted_ports_mod_65536 ["portbounce", "9000", "9001"] childWorld).2.1
      3 9000 0 (by decide)).2 (by decide) (by decide),
    by decide,
    ((accepted_ports_mod_65536 ["portbounce", "9000", "9001"] childWorld).2.2
      3 [127, 0, 0, 1] 9001 0 (by decide)).2 (by decide) (by decide)⟩

/-- C8 refuted as stated: `main` accepts the arguments `65536` and `-1`.  It
binds port 0 for the first, and the child connects to port 65535 for the
second. -/
theorem out_of_range_ports_accepted :
    atoiDec "65536" = 65536 ∧ atoiDec "-1" = -1 ∧
      main ["portbounce", "65536", "-1"] refusedChildWorld =
        ([Ev.socket 3, Ev.bind 3 0 0, Ev.listen 3 10 0, Ev.accept 3 4, Ev.fork 0,
          Ev.close 3, Ev.socket 3, Ev.gethostbyname "localhost" true,
          Ev.connect 3 [127, 0, 0, 1] 65535 (-1),
          Ev.printf "got connection but nothing listening on other end\n"],
         Exit.status 0) := by
  decide

/-- A run of turns in which the process stays the dispatcher: the calls are
those of `parentTurns` and the loop goes on with the rest of the script. -/
theorem acceptLoop_parentTurns (lsock tnum : Int) (pre rest : List ConnWorld)
    (hpre : ∀ p ∈ pre, 0 ≤ p.acceptRet ∧ 0 < p.forkRet) :
    acceptLoop lsock tnum (pre ++ rest) =
      andThen (parentTurns lsock pre) (acceptLoop lsock tnum rest) := by
  induction pre with
  | nil => rfl
  | cons p ps ih =>
    have hp := hpre p (by simp)
    rw [List.cons_append, acceptLoop_parent lsock tnum p (ps ++ rest) hp.1 hp.2,
      ih (fun q hq => hpre q (by simp [hq]))]
    rfl

/-- A failing `accept` ends the dispatcher with status 1; the rest of the
script is not consulted. -/
theorem acceptLoop_accept_fails (lsock tnum : Int) (c : ConnWorld) (cs : List ConnWorld)
    (hacc : c.acceptRet < 0) :
    acceptLoop lsock tnum (c :: cs) =
      ([Ev.accept lsock c.acceptRet, Ev.printf "socket accept error\n"], Exit.status 1) := by
  rw [acceptLoop]
  dsimp only
  rw [if_pos hacc]
  rfl

/-- After a successful argument check `main` is the startup sequence. -/
theorem main_started (argv : List String) (w : World) (hargs : argv.length = 3)
    (hl : w.atoi (argv.getD 1 "") ≠ 0) (ht : w.atoi (argv.getD 2 "") ≠ 0) :
    main argv w =
      andThen [Ev.socket w.socketRet]
        (if w.socketRet < 0 then ([Ev.printf "socket allocation error\n"], Exit.status 1)
         else andThen [Ev.bind w.socketRet (htons (w.atoi (argv.getD 1 ""))) w.bindRet]
          (if w.bindRet < 0 then ([Ev.printf "bind error\n"], Exit.status 1)
           else andThen [Ev.listen w.socketRet BACKLOG w.listenRet]
            (acceptLoop w.socketRet (w.atoi (argv.getD 2 "")) w.conns))) := by
  unfold main
  dsimp only
  have h1 : ¬ (((argv.length : Nat) : Int) ≠ 3) := by
    rw [hargs]; decide
  have h2 : ¬ (w.atoi (argv.getD 1 "") = 0 ∨ w.atoi (argv.getD 2 "") = 0) := by
    rintro (h | h)
    · exact hl h
    · exact ht h
  rw [if_neg h1, if_neg h2]

/-! ## Fatal startup conditions -/

/-- C7: in a run of `main` with valid arguments, a failure of `socket`, of
`bind` or of `accept` makes `main` print a diagnostic and return 1, and the
failing call is the last system call of the dispatcher: nothing is accepted
or forked after it.  For `accept` this holds at any turn of the loop, after
any number of connections handed to children.  The result of `listen` is not
tested by the program; a kernel answers the `accept` on a socket whose
`listen` failed with an error at once, and then the run is `socket`, `bind`,
`listen`, `accept`, a diagnostic, and status 1, with no connection accepted. -/
theorem startup_failure_exits (argv : List String) (w : World)
    (hargs : argv.length = 3) (hl : w.atoi (argv.getD 1 "") ≠ 0)
    (ht : w.atoi (argv.getD 2 "") ≠ 0) :
    (w.socketRet < 0 →
        main argv w =
          ([Ev.socket w.socketRet, Ev.printf "socket allocation error\n"],
            Exit.status 1)) ∧
      (0 ≤ w.socketRet → w.bindRet < 0 →
        main argv w =
          ([Ev.socket w.socketRet,
            Ev.bind w.socketRet (htons (w.atoi (argv.getD 1 ""))) w.bindRet,
            Ev.printf "bind error\n"], Exit.status 1)) ∧
      (0 ≤ w.socketRet → 0 ≤ w.bindRet → w.listenRet < 0 →
        ∀ c cs, w.conns = c :: cs → c.acceptRet < 0 →
          main argv w =
            ([Ev.socket w.socketRet,
              Ev.bind w.socketRet (htons (w.atoi (argv.getD 1 ""))) w.bindRet,
              Ev.listen w.socketRet BACKLOG w.listenRet,
              Ev.accept w.socketRet c.acceptRet,
              Ev.printf "socket accept error\n"], Exit.status 1)) ∧
      (0 ≤ w.socketRet → 0 ≤ w.bindRet →
        ∀ pre c cs, w.conns = pre ++ c :: cs →
          (∀ p ∈ pre, 0 ≤ p.acceptRet ∧ 0 < p.forkRet) → c.acceptRet < 0 →
          main argv w =
            ([Ev.socket w.socketRet,
              Ev.bind w.socketRet (htons (w.atoi (argv.getD 1 ""))) w.bindRet,
              Ev.listen w.socketRet BACKLOG w.listenRet] ++
              parentTurns w.socketRet pre ++
              [Ev.accept w.socketRet c.acceptRet, Ev.printf "socket accept error\n"],
             Exit.status 1)) := by
  have hm := main_started argv w hargs hl ht
  have hloop : 0 ≤ w.socketRet → 0 ≤ w.bindRet →
      ∀ pre c cs, w.conns = pre ++ c :: cs →
        (∀ p ∈ pre, 0 ≤ p.acceptRet ∧ 0 < p.forkRet) → c.acceptRet < 0 →
        main argv w =
          ([Ev.socket w.socketRet,
            Ev.bind w.socketRet (htons (w.atoi (argv.getD 1 ""))) w.bindRet,
            Ev.listen w.socketRet BACKLOG w.listenRet] ++
            parentTurns w.socketRet pre ++
            [Ev.accept w.socketRet c.acceptRet, Ev.printf "socket accept error\n"],
           Exit.status 1) := by
    intro hs hb pre c cs hc hpre hacc
    have h1 : ¬ w.socketRet < 0 := by omega
    have h2 : ¬ w.bindRet < 0 := by omega
    rw [hm, if_neg h1, if_neg h2, hc, acceptLoop_parentTurns _ _ pre (c :: cs) hpre,
      acceptLoop_accept_fails _ _ c cs hacc]
    simp [andThen]
  refine ⟨?_, ?_, ?_, hloop⟩
  · intro hs
    rw [hm, if_pos hs]
    rfl
  · intro hs hb
    have h1 : ¬ w.socketRet < 0 := by omega
    rw [hm, if_neg h1, if_pos hb]
    rfl
  · intro hs hb _ c cs hc hacc
    have h := hloop hs hb [] c cs (by simpa using hc) (by simp) hacc
    rw [h]
    rfl

/-- Witness of C7: a `listen` that fails, followed by the failing `accept`;
and a dispatcher whose third `accept` fails after two served connections. -/
theorem startup_failure_exits_witness :
    main ["portbounce", "9000", "9001"] listenFailsWorld =
        ([Ev.socket 3, Ev.bind 3 9000 0, Ev.listen 3 10 (-1), Ev.accept 3 (-1),
          Ev.printf "socket accept error\n"], Exit.status 1) ∧
      main ["portbounce", "9000", "9001"] acceptFailsWorld =
        ([Ev.socket 3, Ev.bind 3 9000 0, Ev.listen 3 10 0,
          Ev.accept 3 4, Ev.fork 7, Ev.close 4,
          Ev.accept 3 4, Ev.fork 8, Ev.close 4,
          Ev.accept 3 (-1), Ev.printf "socket accept error\n"], Exit.status 1) :=
  ⟨(startup_failure_exits ["portbounce", "9000", "9001"] listenFailsWorld
      (by decide) (by decide) (by decide)).2.2.1 (by decide) (by decide) (by decide)
      ⟨-1, 0, echoWorld⟩ [] rfl (by decide),
    (startup_failure_exits ["portbounce", "9000", "9001"] acceptFailsWorld
      (by decide) (by decide) (by decide)).2.2.2 (by decide) (by decide)
      [⟨4, 7, echoWorld⟩, ⟨4, 8, refusedWorld⟩] ⟨-1, 0, echoWorld⟩ [⟨4, 9, echoWorld⟩]
      rfl (by decide) (by decide)⟩

/-! ## Argument check of `main` -/

/-- C6: when `argc` is not 3, or the listen-port or target-port argument
parses to zero, `main` returns status 1 and the only call it has made is one
`printf`: no `socket`, `bind`, `listen` or `accept`. -/
theorem usage_error_before_any_socket (argv : List String) (w : World)
    (h : argv.length ≠ 3 ∨ w.atoi (argv.getD 1 "") = 0 ∨ w.atoi (argv.getD 2 "") = 0) :
    (main argv w).2 = Exit.status 1 ∧ ∃ msg, (main argv w).1 = [Ev.printf msg] := by
  unfold main
  by_cases hc : ((argv.length : Nat) : Int) ≠ 3
  · rw [if_pos hc]
    exact ⟨rfl, _, rfl⟩
  · have hlen : argv.length = 3 := by
      have := not_not.mp hc
      exact_mod_cast this
    have hz : w.atoi (argv.getD 1 "") = 0 ∨ w.atoi (argv.getD 2 "") = 0 := by
      rcases h with h | h
      · exact absurd hlen h
      · exact h
    rw [if_neg hc, if_pos hz]
    exact ⟨rfl, _, rfl⟩

/-- Witness of C6: a zero listen port. -/
theorem usage_error_before_any_socket_witness :
    (main ["portbounce", "0", "9001"] childWorld).2 = Exit.status 1 ∧
      ∃ msg, (main ["portbounce", "0", "9001"] childWorld).1 = [Ev.printf msg] :=
  usage_error_before_any_socket ["portbounce", "0", "9001"] childWorld
    (Or.inr (Or.inl (by decide)))

end Portbounce
